import Mathlib

/-!
Verification development for the BIOT670 fusion-gene alignment core.

The definitions below are a shallow embedding of the Python sources:
  alignment_helper.py       (CIGAR tokenizer, trimHardClips, padding engine,
                             reference-span calculator)
  FusionGeneParser_final.py (split-read filtering loop)
  alignment_tester.py       (record-codec read path, ParseReadFile)

Python strings are embedded as List Char; Python ints as Int (cursors and
lengths that are provably nonnegative are Nat); Python exceptions as an
Except error channel; the one genuinely divergent loop (the trailing-trim
loop of trimHardClips) is embedded with an Option, where none marks
divergence.  Python logging.error output is embedded as a list of
structured diagnostics carrying exactly the values interpolated into the
logged message.
-/

/-- ASCII decimal digit test, embedding the character class matched by the
regex d+ in alignment_helper.cigarStringToList (on the ASCII data this
program handles). -/
def isAsciiDigit (c : Char) : Bool := 48 ≤ c.toNat && c.toNat ≤ 57

/-- Uppercase A-Z test, embedding the regex character class A-Z used by
alignment_helper.cigarStringToList. -/
def isUpperAZ (c : Char) : Bool := 65 ≤ c.toNat && c.toNat ≤ 90

/-- CigarEntry from alignment_helper.py: a length together with a one-letter
operation type (e.g. 16 M). -/
structure CigarEntry where
  cigarLength : Nat
  cigarType : Char
deriving DecidableEq, Repr

/-- Decimal digit character for a value below ten (clamped at '9'),
used to embed Python's decimal rendering of an int. -/
def digitChar : Nat → Char
  | 0 => '0'
  | 1 => '1'
  | 2 => '2'
  | 3 => '3'
  | 4 => '4'
  | 5 => '5'
  | 6 => '6'
  | 7 => '7'
  | 8 => '8'
  | _ => '9'

/-- Decimal digit string of a natural number, embedding Python str(int). -/
def natToDigits (n : Nat) : List Char :=
  if _h : n < 10 then [digitChar n]
  else natToDigits (n / 10) ++ [digitChar (n % 10)]
decreasing_by exact Nat.div_lt_self (by omega) (by omega)

/-- CigarEntry.__str__ from alignment_helper.py:
str(self.getCigarLength()) + self.getCigarType(). -/
def CigarEntry.toStr (e : CigarEntry) : String :=
  String.mk (natToDigits e.cigarLength ++ [e.cigarType])

/-- Concatenation of the string forms of a list of cigar entries (the
string a tokenized CIGAR denotes, per CigarEntry.__str__). -/
def stringifyCigarList : List CigarEntry → String
  | [] => String.mk []
  | e :: rest => e.toStr ++ stringifyCigarList rest

/-- Value of a decimal digit string, as read left to right; embeds
Python int() applied to the digit run captured by the regex. -/
def natOfDigits (ds : List Char) : Nat :=
  ds.foldl (fun a c => 10 * a + (c.toNat - 48)) 0

/-- Scanner embedding re.findall("d+[A-Z]", s): walks the characters
keeping the current maximal pending digit run; a digit extends the run, an
uppercase letter right after a nonempty run emits one match (digits then
letter) and resets, anything else resets the run.  This is exactly the set
of non-overlapping leftmost matches of the regex. -/
def reFindAllGo : List Char → List Char → List (List Char)
  | [], _ => []
  | c :: rest, ds =>
    if isAsciiDigit c then reFindAllGo rest (ds ++ [c])
    else if !ds.isEmpty && isUpperAZ c then (ds ++ [c]) :: reFindAllGo rest []
    else reFindAllGo rest []

/-- cigarStringToList from alignment_helper.py: regex-split the cigar
string into (digits)(letter) segments, then build a CigarEntry from each
segment via int(result[0:len(result)-1]) and result[-1].  Note the source
performs no validation of the letter and returns an empty list (not an
error) when nothing matches. -/
def cigarStringToList (s : String) : List CigarEntry :=
  (reFindAllGo s.data []).map
    (fun seg => CigarEntry.mk (natOfDigits seg.dropLast) (seg.getLastD '?'))

/-- trimHardClips from alignment_helper.py.  The leading while-loop drops
leading H entries one at a time (dropWhile).  The trailing while-loop's
body is cigar_list = cigar_list[0:len(cigar_list)], an identity slice, so
whenever its condition holds (the remaining list is nonempty and ends in
H) the loop runs forever; that divergence is embedded as none. -/
def trimHardClips (l : List CigarEntry) : Option (List CigarEntry) :=
  match (l.dropWhile (fun e => e.cigarType == 'H')).getLast? with
  | none => some (l.dropWhile (fun e => e.cigarType == 'H'))
  | some e =>
    if e.cigarType == 'H' then none
    else some (l.dropWhile (fun e => e.cigarType == 'H'))

/-- One shaded area: a start offset into the padded sequence and a length,
embedding the two-element lists appended to shaded_ref / shaded_read. -/
structure ShadedInterval where
  start : Nat
  length : Nat
deriving DecidableEq, Repr

/-- The four per-operation booleans set by the if/elif chain at the top of
the loop body of cigarListToShadedAreas. -/
structure OpFlags where
  shadeRef : Bool
  shadeRead : Bool
  padRef : Bool
  padRead : Bool
deriving DecidableEq, Repr

/-- The if/elif chain of cigarListToShadedAreas dispatching on the cigar
type, in source order (I, N, M, D, S, H); any other letter raises. -/
def opFlags (c : Char) : Except String OpFlags :=
  if c = 'I' then .ok (OpFlags.mk false true true false)
  else if c = 'N' then .ok (OpFlags.mk true false false true)
  else if c = 'M' then .ok (OpFlags.mk true true false false)
  else if c = 'D' then .ok (OpFlags.mk true false false true)
  else if c = 'S' then .ok (OpFlags.mk true false false false)
  else if c = 'H' then .ok (OpFlags.mk false false true true)
  else .error ("Cigar type of \"" ++ c.toString ++ "\" is not supported.")

/-- Python slice seq[start:end] for 0 ≤ start ≤ end: the elements at
indices start..end-1, clamped to the available data. -/
def pySlice (l : List Char) (s e : Nat) : List Char :=
  (l.drop s).take (e - s)

/-- The add-a-shaded-area block of cigarListToShadedAreas: if the previous
interval ends exactly at the current shade position the two are merged
(the previous entry is removed and re-appended with its length extended),
otherwise a new interval [shadePos, L] is appended. -/
def addShade (lst : List ShadedInterval) (shadePos L : Nat) : List ShadedInterval :=
  match lst.getLast? with
  | some a =>
    if a.start + a.length = shadePos then
      lst.dropLast ++ [ShadedInterval.mk a.start (a.length + L)]
    else lst ++ [ShadedInterval.mk shadePos L]
  | none => lst ++ [ShadedInterval.mk shadePos L]

/-- The loop state of cigarListToShadedAreas: the two shaded-area lists,
the two padded sequences being built, and the three cursors
current_ref_position, current_read_position, current_shade_position. -/
structure PadState where
  shadedRef : List ShadedInterval
  shadedRead : List ShadedInterval
  paddedRef : List Char
  paddedRead : List Char
  refPos : Nat
  readPos : Nat
  shadePos : Nat
deriving DecidableEq, Repr

/-- The initial loop state of cigarListToShadedAreas. -/
def initPadState : PadState := PadState.mk [] [] [] [] 0 0 0

/-- One iteration of the loop of cigarListToShadedAreas for one cigar
entry: dispatch the flags, update the shaded lists (using the shade
position before it advances), advance the shade position, then either pad
with spaces or consume a slice on the reference side and on the read side. -/
def padStep (readSeq refSeq : List Char) (st : PadState) (e : CigarEntry) :
    Except String PadState :=
  (opFlags e.cigarType).map (fun f =>
    let newShadedRef :=
      if f.shadeRef then addShade st.shadedRef st.shadePos e.cigarLength
      else st.shadedRef
    let newShadedRead :=
      if f.shadeRead then addShade st.shadedRead st.shadePos e.cigarLength
      else st.shadedRead
    let refAdd :=
      if f.padRef then List.replicate e.cigarLength ' '
      else pySlice refSeq st.refPos (st.refPos + e.cigarLength)
    let newRefPos := if f.padRef then st.refPos else st.refPos + e.cigarLength
    let readAdd :=
      if f.padRead then List.replicate e.cigarLength ' '
      else pySlice readSeq st.readPos (st.readPos + e.cigarLength)
    let newReadPos := if f.padRead then st.readPos else st.readPos + e.cigarLength
    PadState.mk newShadedRef newShadedRead (st.paddedRef ++ refAdd)
      (st.paddedRead ++ readAdd) newRefPos newReadPos
      (st.shadePos + e.cigarLength))

/-- The whole loop of cigarListToShadedAreas over the cigar list, raising
(error) at the first unsupported cigar type exactly as the source does. -/
def padWalkAux (readSeq refSeq : List Char) :
    List CigarEntry → PadState → Except String PadState
  | [], st => .ok st
  | e :: rest, st =>
    match padStep readSeq refSeq st e with
    | .error m => .error m
    | .ok st1 => padWalkAux readSeq refSeq rest st1

/-- The post-walk consistency condition of cigarListToShadedAreas, in
source order: expected_length != len(padded_ref_seq) or expected_length !=
len(padded_read_seq) or current_read_position != len(read_seq) or
current_ref_position != len(ref_seq). -/
def lengthsInconsistent (readSeq refSeq : List Char) (st : PadState) : Bool :=
  st.shadePos != st.paddedRef.length || st.shadePos != st.paddedRead.length ||
  st.readPos != readSeq.length || st.refPos != refSeq.length

/-- The data interpolated into the logging.error message emitted by
cigarListToShadedAreas when the post-walk checks fail: the cigar list (in
its str() form), the expected padded length, both padded lengths, and the
expected-versus-consumed counts for the reference and the read.  The
logged string is a pure rendering of exactly these fields. -/
structure PaddingDiag where
  cigarStrs : List String
  expectedLength : Nat
  paddedRefLength : Nat
  paddedReadLength : Nat
  refLength : Nat
  refConsumed : Nat
  readLength : Nat
  readConsumed : Nat
deriving DecidableEq, Repr

/-- The diagnostic record for one failed post-walk check (see PaddingDiag). -/
def mkDiag (cl : List CigarEntry) (readSeq refSeq : List Char) (st : PadState) :
    PaddingDiag :=
  PaddingDiag.mk (cl.map (fun e => e.toStr)) st.shadePos st.paddedRef.length
    st.paddedRead.length refSeq.length st.refPos readSeq.length st.readPos

/-- ShadedAreasInfo from alignment_helper.py: the two shaded-area lists and
the two padded sequences returned by cigarListToShadedAreas. -/
structure ShadedAreasInfo where
  shadedRef : List ShadedInterval
  shadedRead : List ShadedInterval
  paddedRefSeq : List Char
  paddedReadSeq : List Char
deriving DecidableEq, Repr

/-- cigarListToShadedAreas from alignment_helper.py.  Runs the loop; on
success applies the post-walk checks: when they fail it logs one
diagnostic (returned here as the second component) and pads the shorter
padded string with '?' up to abs(len difference) characters (the raise is
commented out in the source), then returns the ShadedAreasInfo. -/
def cigarListToShadedAreas (cl : List CigarEntry) (readSeq refSeq : List Char) :
    Except String (ShadedAreasInfo × List PaddingDiag) :=
  match padWalkAux readSeq refSeq cl initPadState with
  | .error m => .error m
  | .ok st =>
    if lengthsInconsistent readSeq refSeq st then
      let d := Int.natAbs ((st.paddedRef.length : Int) - (st.paddedRead.length : Int))
      if st.paddedRef.length > st.paddedRead.length then
        .ok (ShadedAreasInfo.mk st.shadedRef st.shadedRead st.paddedRef
          (st.paddedRead ++ List.replicate d '?'), [mkDiag cl readSeq refSeq st])
      else
        .ok (ShadedAreasInfo.mk st.shadedRef st.shadedRead
          (st.paddedRef ++ List.replicate d '?') st.paddedRead,
          [mkDiag cl readSeq refSeq st])
    else
      .ok (ShadedAreasInfo.mk st.shadedRef st.shadedRead st.paddedRef st.paddedRead, [])

/-- The if/elif chain of howLongShouldReferenceSequenceBe, in source order:
should this cigar type count toward the reference span (I no, N yes, M
yes, D yes, S yes, H no, otherwise raise). -/
def refCountFlag (c : Char) : Except String Bool :=
  if c = 'I' then .ok false
  else if c = 'N' then .ok true
  else if c = 'M' then .ok true
  else if c = 'D' then .ok true
  else if c = 'S' then .ok true
  else if c = 'H' then .ok false
  else .error ("Cigar type of \"" ++ c.toString ++ "\" is not supported.")

/-- howLongShouldReferenceSequenceBe from alignment_helper.py: the sum of
the lengths of the entries whose type counts toward the reference span,
raising at the first unsupported type. -/
def howLongShouldReferenceSequenceBe : List CigarEntry → Except String Nat
  | [] => .ok 0
  | e :: rest =>
    match refCountFlag e.cigarType with
    | .error m => .error m
    | .ok b =>
      match howLongShouldReferenceSequenceBe rest with
      | .error m => .error m
      | .ok n => .ok ((if b then e.cigarLength else 0) + n)

/-- Total (error-free) reference span of a cigar list: sum of the lengths
of the M, N, D and S entries.  Helper for stating facts about
howLongShouldReferenceSequenceBe. -/
def refSpanNat : List CigarEntry → Nat
  | [] => 0
  | e :: rest =>
    (if e.cigarType ∈ (['M', 'N', 'D', 'S'] : List Char) then e.cigarLength else 0) +
      refSpanNat rest

/-- Sum of all operation lengths of a cigar list. -/
def cigarLenSum : List CigarEntry → Nat
  | [] => 0
  | e :: rest => e.cigarLength + cigarLenSum rest

/-- The six cigar operation letters supported by the padding engine and
the reference-span calculator. -/
def supportedKinds : List Char := ['M', 'I', 'D', 'N', 'S', 'H']

/-- Well-formedness of one shaded-interval list: start-ordered with a
strict gap between consecutive intervals (in particular no two
consecutive entries a, b with a.start + a.length = b.start), and every
interval of positive length.  Starts are Nat, hence nonnegative. -/
def intervalsWellFormed (l : List ShadedInterval) : Prop :=
  List.Chain' (fun a b => a.start + a.length < b.start) l ∧
    ∀ iv ∈ l, 0 < iv.length

/-- Python substring containment (the in operator on str): does sub occur
contiguously inside s. -/
def containsSub (sub s : List Char) : Bool := decide (sub <:+: s)

/-- Python exception kinds raised by the embedded scripts. -/
inductive PyErr where
  | valueError
  | indexError
  | nameError
  | exception (msg : String)
deriving DecidableEq, Repr

/-- Python seq[i]: the element at index i, or an IndexError. -/
def pyIndex {α : Type} (l : List α) (i : Nat) : Except PyErr α :=
  match l.get? i with
  | some x => .ok x
  | none => .error PyErr.indexError

/-- Worker for Python str.split(sep) with a nonempty separator: scan left
to right, cutting at each leftmost non-overlapping occurrence of sep.
The fuel argument (always at least the remaining length plus one at call
sites) only forces termination. -/
def splitOnSepGo (sep : List Char) : Nat → List Char → List Char →
    List (List Char)
  | 0, acc, rest => [acc ++ rest]
  | _ + 1, acc, [] =>
    if sep.isPrefixOf ([] : List Char) then [acc, []] else [acc]
  | fuel + 1, acc, c :: r =>
    if sep.isPrefixOf (c :: r) then
      acc :: splitOnSepGo sep fuel [] (List.drop sep.length (c :: r))
    else splitOnSepGo sep fuel (acc ++ [c]) r

/-- Python str.split(sep) for a nonempty separator string sep. -/
def splitOnSep (sep s : List Char) : List (List Char) :=
  splitOnSepGo sep (s.length + 1) [] s

/-- Worker for Python str.split() with no separator: split on runs of
whitespace, discarding empty fields. -/
def pyWordsGo : List Char → List Char → List (List Char)
  | [], acc => if acc.isEmpty then [] else [acc.reverse]
  | c :: rest, acc =>
    if c.isWhitespace then
      if acc.isEmpty then pyWordsGo rest [] else acc.reverse :: pyWordsGo rest []
    else pyWordsGo rest (c :: acc)

/-- Python str.split() with no separator (whitespace split). -/
def pyWhitespaceSplit (s : List Char) : List (List Char) := pyWordsGo s []

/-- Python str.strip(chars): remove from both ends every leading and
trailing character that occurs anywhere in chars (a character-set strip,
not a literal-prefix strip). -/
def pyStrip (chars s : List Char) : List Char :=
  ((s.dropWhile (fun c => chars.contains c)).reverse.dropWhile
    (fun c => chars.contains c)).reverse

/-- Python int(str) on the ASCII data this program handles: strip
surrounding whitespace, allow one optional sign, then require a nonempty
run of decimal digits; anything else raises ValueError (here none). -/
def pyInt (s : List Char) : Option Int :=
  match (s.dropWhile Char.isWhitespace).reverse.dropWhile Char.isWhitespace
      |>.reverse with
  | '-' :: ds =>
    if !ds.isEmpty && ds.all isAsciiDigit then some (-(natOfDigits ds : Int))
    else none
  | '+' :: ds =>
    if !ds.isEmpty && ds.all isAsciiDigit then some ((natOfDigits ds : Int))
    else none
  | ds =>
    if !ds.isEmpty && ds.all isAsciiDigit then some ((natOfDigits ds : Int))
    else none

/-- One decoded alignment record as consumed by FusionGeneParser_final.py
(the pybam fields the loop body reads). -/
structure AlignmentRec where
  sam_qname : List Char
  sam_rname : List Char
  sam_pos1 : Int
  sam_mapq : Int
  sam_cigar_string : List Char
  sam_tags_string : List Char
  sam_seq : List Char
  sam_l_seq : Int
deriving DecidableEq, Repr

/-- The Read namedtuple of FusionGeneParser_final.py, field for field. -/
structure Read where
  Name : List Char
  Chr : List Char
  Pos : Int
  SuppAl : List Char
  ReadSeq : List Char
  ReadLen : Int
  Cigar : List Char
  SA_Chr : List Char
  SA_Pos : List Char
  SA_MAPQ : Int
deriving DecidableEq, Repr

/-- The body of the inner for-tag loop of FusionGeneParser_final.py for one
matching tag: comma-split it, take field 0 split on "SA:Z:" at index 1 as
the supplementary chromosome, field 1 as the position text, and int(field
4) as the supplementary mapping quality; index or int failures raise. -/
def parseSATag (tag : List Char) : Except PyErr (List Char × List Char × Int) :=
  match pyIndex (splitOnSep (',' :: []) tag) 0 with
  | .error e => .error e
  | .ok f0 =>
    match pyIndex (splitOnSep "SA:Z:".data f0) 1 with
    | .error e => .error e
    | .ok saChr =>
      match pyIndex (splitOnSep (',' :: []) tag) 1 with
      | .error e => .error e
      | .ok saPos =>
        match pyIndex (splitOnSep (',' :: []) tag) 4 with
        | .error e => .error e
        | .ok f4 =>
          match pyInt f4 with
          | none => .error PyErr.valueError
          | some q => .ok (saChr, saPos, q)

/-- The inner for-tag loop of FusionGeneParser_final.py: the SA variables
keep the values from the last whitespace token containing "SA:Z:"; none
means the loop never assigned them (unreachable once the two-way split on
"SA:Z:" has succeeded, since the separator is whitespace-free and so lies
inside one token). -/
def saLoop (tags : List (List Char)) :
    Except PyErr (Option (List Char × List Char × Int)) :=
  tags.foldl
    (fun acc tag =>
      match acc with
      | .error e => .error e
      | .ok st =>
        if containsSub "SA:Z:".data tag then
          match parseSATag tag with
          | .error e => .error e
          | .ok v => .ok (some v)
        else .ok st)
    (.ok none)

/-- One pass of the per-record filtering loop body of
FusionGeneParser_final.py: skip records without an "SA:" substring;
unpack head, tail = tags.split("SA:Z:") (ValueError unless that yields
exactly two parts); skip records with mapping quality below 50; run the
for-tag loop; skip if the supplementary mapping quality is below 50;
otherwise build the Read tuple, stripping the character set "chr" from
both ends of the reference name. -/
def processRecord (a : AlignmentRec) : Except PyErr (Option Read) :=
  if (containsSub "SA:".data a.sam_tags_string) = false then .ok none
  else
    match splitOnSep "SA:Z:".data a.sam_tags_string with
    | [_head, tail] =>
      if a.sam_mapq < 50 then .ok none
      else
        match saLoop (pyWhitespaceSplit a.sam_tags_string) with
        | .error e => .error e
        | .ok none => .error PyErr.nameError
        | .ok (some (saChr, saPos, saMapq)) =>
          if saMapq < 50 then .ok none
          else
            .ok (some (Read.mk a.sam_qname (pyStrip "chr".data a.sam_rname)
              a.sam_pos1 tail a.sam_seq a.sam_l_seq a.sam_cigar_string
              saChr saPos saMapq))
    | _ => .error PyErr.valueError

/-- Spec-side definition for claim C8, following the spec's words only:
the reference name with one leading literal "chr" stripped and nothing
else removed.  Used to compare the specified normalization against the
source's pyStrip behavior. -/
def specStripLeadingChr (s : List Char) : List Char :=
  if "chr".data.isPrefixOf s then s.drop 3 else s

/-- The per-entry data assembled by ParseReadFile in alignment_tester.py:
one AlignmentInfo together with its two HalfAlignmentInfos (the Qt color
constants of the source carry no data and are omitted). -/
structure AlignmentInfoM where
  name : List Char
  cigarList : List CigarEntry
  refStart : Int
  readStart : Int
  refSeqPadded : List Char
  refSeq : List Char
  readSeqPadded : List Char
  readSeq : List Char
  shadedRefAreas : List ShadedInterval
  shadedReadAreas : List ShadedInterval
deriving DecidableEq, Repr

/-- The per-block processing of ParseReadFile in alignment_tester.py, on
the accumulated lines of one block (the lines before the ">" terminator,
already right-stripped of newlines): line 0 is the name; the read start
and the reference start are each computed as int of the text of line 1
before the first ':'; line 3 is tokenized and hard-clip-trimmed (ok none
marks the divergence of trimHardClips); lines 4 and 5 are the read and
reference sequences handed to cigarListToShadedAreas. -/
def processBlock (lines : List (List Char)) : Except PyErr (Option AlignmentInfoM) :=
  match pyIndex lines 0 with
  | .error e => .error e
  | .ok name =>
  match pyIndex lines 1 with
  | .error e => .error e
  | .ok line1a =>
  match pyIndex (splitOnSep (':' :: []) line1a) 0 with
  | .error e => .error e
  | .ok cell1a =>
  match pyInt cell1a with
  | none => .error PyErr.valueError
  | some readStart =>
  match pyIndex lines 1 with
  | .error e => .error e
  | .ok line1b =>
  match pyIndex (splitOnSep (':' :: []) line1b) 0 with
  | .error e => .error e
  | .ok cell1b =>
  match pyInt cell1b with
  | none => .error PyErr.valueError
  | some refStart =>
  match pyIndex lines 3 with
  | .error e => .error e
  | .ok line3 =>
  match trimHardClips (cigarStringToList (String.mk line3)) with
  | none => .ok none
  | some cl =>
  match pyIndex lines 4 with
  | .error e => .error e
  | .ok readSeq =>
  match pyIndex lines 5 with
  | .error e => .error e
  | .ok refSeq =>
  match cigarListToShadedAreas cl readSeq refSeq with
  | .error m => .error (PyErr.exception m)
  | .ok (info, _diags) =>
    .ok (some (AlignmentInfoM.mk name cl refStart readStart info.paddedRefSeq
      refSeq info.paddedReadSeq readSeq info.shadedRef info.shadedRead))

/-- Inductive invariant for one shaded-interval list during the walk: the
list is gap-ordered with positive lengths and its last interval ends no
later than the current shade position. -/
def shadeInv (l : List ShadedInterval) (pos : Nat) : Prop :=
  List.Chain' (fun a b => a.start + a.length < b.start) l ∧
    (∀ iv ∈ l, 0 < iv.length) ∧
    ∀ a ∈ l.getLast?, a.start + a.length ≤ pos

/-! Helper lemmas about slices. -/

theorem pySlice_length_le (l : List Char) (s L : Nat) :
    (pySlice l s (s + L)).length ≤ L := by
  simp [pySlice]

theorem pySlice_length_eq (l : List Char) (s L : Nat) (h : s + L ≤ l.length) :
    (pySlice l s (s + L)).length = L := by
  simp [pySlice]
  omega

/-- Claim C3: trimHardClips is claimed to terminate on every finite list
and return the subsequence with leading and trailing H removed.  The code
contradicts its own docstring: the trailing-trim loop's body is the
identity slice cigar_list[0:len(cigar_list)], so on the failing input
[5M, 3H] the loop condition never changes and the function never returns
(embedded as none instead of the documented some [5M]). -/
theorem C3_trimHardClips_diverges_on_trailing_hard_clip :
    trimHardClips [CigarEntry.mk 5 'M', CigarEntry.mk 3 'H'] = none := rfl

/-- Claim C2 counterexample: for the soft-clip CIGAR 2S with read "AC" and
reference window "GT", the engine consumes the two read bases (padded
read "AC"), instead of appending two blank-padding characters as the
claim states; the read cursor advances by 2 as witnessed by the absence
of any length mismatch. -/
theorem C2_counterexample :
    cigarListToShadedAreas [CigarEntry.mk 2 'S'] "AC".data "GT".data =
      .ok (ShadedAreasInfo.mk [ShadedInterval.mk 0 2] [] "GT".data "AC".data, []) ∧
    "AC".data ≠ List.replicate 2 ' ' :=
  ⟨rfl, by decide⟩

/-- Claim C2 amended: a soft-clip operation of length L shades the
reference (not the read), consumes L bases from the reference window, and
also consumes L bases from the read sequence — the read characters are
emitted into the padded read (no blank padding on either side). -/
theorem C2_soft_clip_step (L : Nat) (readSeq refSeq : List Char) (st : PadState) :
    padStep readSeq refSeq st (CigarEntry.mk L 'S') =
      .ok (PadState.mk (addShade st.shadedRef st.shadePos L) st.shadedRead
        (st.paddedRef ++ pySlice refSeq st.refPos (st.refPos + L))
        (st.paddedRead ++ pySlice readSeq st.readPos (st.readPos + L))
        (st.refPos + L) (st.readPos + L) (st.shadePos + L)) := rfl

/-! Helper lemmas for the tokenizer round trip. -/

theorem digitChar_isAsciiDigit (n : Nat) : isAsciiDigit (digitChar n) = true := by
  rcases n with _ | _ | _ | _ | _ | _ | _ | _ | _ | n <;> rfl

theorem digitChar_toNat (n : Nat) (h : n < 10) : (digitChar n).toNat = 48 + n := by
  interval_cases n <;> rfl

theorem natToDigits_ne_nil (n : Nat) : natToDigits n ≠ [] := by
  rw [natToDigits]
  split <;> simp

theorem natToDigits_digits (n : Nat) :
    ∀ c ∈ natToDigits n, isAsciiDigit c = true := by
  induction n using Nat.strong_induction_on with
  | _ n ih =>
    rw [natToDigits]
    split
    · intro c hc
      simp at hc
      subst hc
      exact digitChar_isAsciiDigit n
    · intro c hc
      rcases List.mem_append.1 hc with h | h
      · exact ih (n / 10) (Nat.div_lt_self (by omega) (by omega)) c h
      · simp at h
        subst h
        exact digitChar_isAsciiDigit (n % 10)

theorem natOfDigits_append (l : List Char) (c : Char) :
    natOfDigits (l ++ [c]) = 10 * natOfDigits l + (c.toNat - 48) := by
  simp [natOfDigits, List.foldl_append]

theorem natOfDigits_natToDigits (n : Nat) :
    natOfDigits (natToDigits n) = n := by
  induction n using Nat.strong_induction_on with
  | _ n ih =>
    rw [natToDigits]
    split
    · next h =>
      simp [natOfDigits, digitChar_toNat n h]
    · next h =>
      rw [natOfDigits_append, ih (n / 10) (Nat.div_lt_self (by omega) (by omega)),
        digitChar_toNat (n % 10) (Nat.mod_lt n (by omega))]
      omega

theorem upper_not_digit (c : Char) (h : isUpperAZ c = true) :
    isAsciiDigit c = false := by
  simp only [isUpperAZ, Bool.and_eq_true, decide_eq_true_eq] at h
  rw [← Bool.not_eq_true]
  simp only [isAsciiDigit, Bool.and_eq_true, decide_eq_true_eq, not_and]
  omega

theorem reFindAllGo_emit (u : Char) (hu : isUpperAZ u = true) (rest : List Char) :
    ∀ (ds2 ds1 : List Char), (∀ c ∈ ds2, isAsciiDigit c = true) →
      ds1 ++ ds2 ≠ [] →
      reFindAllGo (ds2 ++ u :: rest) ds1 =
        ((ds1 ++ ds2) ++ [u]) :: reFindAllGo rest [] := by
  intro ds2
  induction ds2 with
  | nil =>
    intro ds1 _ hne
    rcases ds1 with _ | ⟨d, ds⟩
    · simp at hne
    · simp [reFindAllGo, upper_not_digit u hu, hu]
  | cons d ds2 ih =>
    intro ds1 hdig hne
    have hd : isAsciiDigit d = true := hdig d (by simp)
    have := ih (ds1 ++ [d]) (fun c hc => hdig c (by simp [hc])) (by simp)
    simp only [List.cons_append, reFindAllGo, hd, if_true]
    show reFindAllGo (ds2 ++ u :: rest) (ds1 ++ [d]) = _
    rw [this]
    simp

theorem string_data_append (a b : String) : (a ++ b).data = a.data ++ b.data := by
  cases a
  cases b
  rfl

/-- Round-trip helper: re-tokenizing the concatenated string forms of any
list of entries whose types are uppercase letters (the alphabet the
tokenizer can produce) yields the original list. -/
theorem tokenize_stringify (l : List CigarEntry)
    (h : ∀ e ∈ l, isUpperAZ e.cigarType = true) :
    cigarStringToList (stringifyCigarList l) = l := by
  induction l with
  | nil => rfl
  | cons e rest ih =>
    have hu : isUpperAZ e.cigarType = true := h e (by simp)
    have hdata : (stringifyCigarList (e :: rest)).data =
        natToDigits e.cigarLength ++ e.cigarType :: (stringifyCigarList rest).data := by
      simp [stringifyCigarList, CigarEntry.toStr, string_data_append]
    unfold cigarStringToList
    rw [hdata, reFindAllGo_emit e.cigarType hu _ (natToDigits e.cigarLength) []
      (natToDigits_digits e.cigarLength) (by simp [natToDigits_ne_nil])]
    simp only [List.map_cons, List.nil_append]
    rw [List.dropLast_concat, List.getLastD_concat, natOfDigits_natToDigits]
    exact congrArg (CigarEntry.mk e.cigarLength e.cigarType :: ·) (ih (fun x hx => h x (by simp [hx])))

/-- Claim C9: round trip of tokenization — for every tokenized CIGAR (a
list of entries whose lengths are naturals and whose kinds are uppercase
letters, exactly what the tokenizer can produce), re-tokenizing the
concatenation of each operation's string form (decimal length followed by
its kind letter) yields the original list. -/
theorem C9_tokenize_roundtrip (l : List CigarEntry)
    (h : ∀ e ∈ l, isUpperAZ e.cigarType = true) :
    cigarStringToList (stringifyCigarList l) = l :=
  tokenize_stringify l h

/-- Witness for C9 at the concrete tokenized CIGAR 15H 200M 1D 300M. -/
theorem C9_tokenize_roundtrip_witness :
    (∀ e ∈ [CigarEntry.mk 15 'H', CigarEntry.mk 200 'M', CigarEntry.mk 1 'D',
      CigarEntry.mk 300 'M'], isUpperAZ e.cigarType = true) ∧
    cigarStringToList (stringifyCigarList [CigarEntry.mk 15 'H',
      CigarEntry.mk 200 'M', CigarEntry.mk 1 'D', CigarEntry.mk 300 'M']) =
      [CigarEntry.mk 15 'H', CigarEntry.mk 200 'M', CigarEntry.mk 1 'D',
        CigarEntry.mk 300 'M'] :=
  ⟨by decide, C9_tokenize_roundtrip _ (by decide)⟩

/-- Claim C6 counterexample: the tokenizer is claimed to fail with a
MalformedCigar error when a segment's letter is outside M,I,D,N,S,H or
when no valid segment exists; but cigarStringToList in the source has no
failure path at all — on "5X" it returns the operation (5, X) and on a
string with no segment it returns the empty list. -/
theorem C6_counterexample :
    cigarStringToList "5X" = [CigarEntry.mk 5 'X'] ∧
    ('X' ∈ supportedKinds) = False ∧
    cigarStringToList "zzz" = [] := by
  refine ⟨by decide, by simp [supportedKinds], by decide⟩

/-- Claim C6 amended: the tokenizer performs no kind validation and never
fails: every (digits)(uppercase letter) segment is returned as an
operation in source order (a string with no matching segment yields the
empty list, not an error); letters outside M,I,D,N,S,H are rejected only
later, by the padding engine, which raises an unsupported-type error when
it walks such an operation. -/
theorem C6_tokenizer_accepts_any_letter (n : Nat) (c : Char)
    (hup : isUpperAZ c = true) (hns : c ∉ supportedKinds)
    (readSeq refSeq : List Char) :
    cigarStringToList (stringifyCigarList [CigarEntry.mk n c]) =
      [CigarEntry.mk n c] ∧
    ∃ msg, cigarListToShadedAreas [CigarEntry.mk n c] readSeq refSeq =
      .error msg := by
  constructor
  · exact tokenize_stringify _ (by intro e he; simp at he; subst he; exact hup)
  · simp only [supportedKinds, List.mem_cons, not_or] at hns
    obtain ⟨hM, hI, hD, hN, hS, hH, -⟩ := hns
    refine ⟨"Cigar type of \"" ++ c.toString ++ "\" is not supported.", ?_⟩
    simp [cigarListToShadedAreas, padWalkAux, padStep, opFlags, Except.map,
      hM, hI, hD, hN, hS, hH]

/-- Witness for C6 amended at n = 5, c = 'X'. -/
theorem C6_tokenizer_accepts_any_letter_witness :
    cigarStringToList (stringifyCigarList [CigarEntry.mk 5 'X']) =
      [CigarEntry.mk 5 'X'] ∧
    ∃ msg, cigarListToShadedAreas [CigarEntry.mk 5 'X'] "HELLO".data "WORLD".data =
      .error msg :=
  C6_tokenizer_accepts_any_letter 5 'X' (by decide) (by decide) "HELLO".data "WORLD".data

/-! Helper lemmas for the padding walk. -/

theorem refCountFlag_ok (c : Char) (b : Bool) (h : refCountFlag c = .ok b) :
    b = decide (c ∈ (['M', 'N', 'D', 'S'] : List Char)) ∧
    ∃ f, opFlags c = .ok f ∧ f.padRef = !b := by
  unfold refCountFlag at h
  split_ifs at h with h1 h2 h3 h4 h5 h6
  · injection h with hb; subst hb; subst h1; exact ⟨by decide, ⟨_, rfl, rfl⟩⟩
  · injection h with hb; subst hb; subst h2; exact ⟨by decide, ⟨_, rfl, rfl⟩⟩
  · injection h with hb; subst hb; subst h3; exact ⟨by decide, ⟨_, rfl, rfl⟩⟩
  · injection h with hb; subst hb; subst h4; exact ⟨by decide, ⟨_, rfl, rfl⟩⟩
  · injection h with hb; subst hb; subst h5; exact ⟨by decide, ⟨_, rfl, rfl⟩⟩
  · injection h with hb; subst hb; subst h6; exact ⟨by decide, ⟨_, rfl, rfl⟩⟩

theorem padWalkAux_spec (readSeq refSeq : List Char) :
    ∀ (cl : List CigarEntry) (st : PadState),
      (∀ e ∈ cl, ∃ b, refCountFlag e.cigarType = .ok b) →
      st.refPos + refSpanNat cl ≤ refSeq.length →
      ∃ st', padWalkAux readSeq refSeq cl st = .ok st' ∧
        st'.paddedRef.length = st.paddedRef.length + cigarLenSum cl ∧
        st'.paddedRead.length ≤ st.paddedRead.length + cigarLenSum cl ∧
        st'.shadePos = st.shadePos + cigarLenSum cl ∧
        st'.refPos = st.refPos + refSpanNat cl := by
  intro cl
  induction cl with
  | nil =>
    intro st _ _
    exact ⟨st, rfl, by simp [cigarLenSum], by simp [cigarLenSum],
      by simp [cigarLenSum], by simp [refSpanNat]⟩
  | cons e rest ih =>
    intro st hk hb
    obtain ⟨b, hbe⟩ := hk e (by simp)
    obtain ⟨hbval, f, hf, hpadRef⟩ := refCountFlag_ok _ _ hbe
    have hstep : padStep readSeq refSeq st e = .ok (PadState.mk
        (if f.shadeRef then addShade st.shadedRef st.shadePos e.cigarLength
          else st.shadedRef)
        (if f.shadeRead then addShade st.shadedRead st.shadePos e.cigarLength
          else st.shadedRead)
        (st.paddedRef ++ (if f.padRef then List.replicate e.cigarLength ' '
          else pySlice refSeq st.refPos (st.refPos + e.cigarLength)))
        (st.paddedRead ++ (if f.padRead then List.replicate e.cigarLength ' '
          else pySlice readSeq st.readPos (st.readPos + e.cigarLength)))
        (if f.padRef then st.refPos else st.refPos + e.cigarLength)
        (if f.padRead then st.readPos else st.readPos + e.cigarLength)
        (st.shadePos + e.cigarLength)) := by
      simp [padStep, hf, Except.map]
    have hreadAdd : (if f.padRead then List.replicate e.cigarLength ' '
        else pySlice readSeq st.readPos (st.readPos + e.cigarLength)).length ≤
        e.cigarLength := by
      cases f.padRead
      · simpa using pySlice_length_le readSeq st.readPos e.cigarLength
      · simp
    cases b with
    | true =>
      have hmem : e.cigarType ∈ (['M', 'N', 'D', 'S'] : List Char) := by
        simpa using hbval.symm
      have hspan : refSpanNat (e :: rest) = e.cigarLength + refSpanNat rest := by
        simp [refSpanNat, hmem]
      have hpr : f.padRef = false := by simp [hpadRef]
      rw [hspan] at hb
      have hslice : (pySlice refSeq st.refPos (st.refPos + e.cigarLength)).length =
          e.cigarLength := pySlice_length_eq _ _ _ (by omega)
      obtain ⟨st1, hstep1, e1, e2, e3, e4⟩ : ∃ st1,
          padStep readSeq refSeq st e = .ok st1 ∧
          st1.paddedRef.length = st.paddedRef.length + e.cigarLength ∧
          st1.paddedRead.length ≤ st.paddedRead.length + e.cigarLength ∧
          st1.shadePos = st.shadePos + e.cigarLength ∧
          st1.refPos = st.refPos + e.cigarLength := by
        refine ⟨_, hstep, ?_, ?_, ?_, ?_⟩
        · simp [hpr, hslice]
        · simp only [List.length_append]
          omega
        · simp
        · simp [hpr]
      rw [padWalkAux, hstep1]
      obtain ⟨st', hwalk, h1, h2, h3, h4⟩ :=
        ih st1 (fun x hx => hk x (by simp [hx])) (by omega)
      refine ⟨st', hwalk, ?_, ?_, ?_, ?_⟩
      · simp only [cigarLenSum]
        omega
      · simp only [cigarLenSum]
        omega
      · simp only [cigarLenSum]
        omega
      · rw [hspan]
        omega
    | false =>
      have hmem : e.cigarType ∉ (['M', 'N', 'D', 'S'] : List Char) := by
        simpa using hbval.symm
      have hspan : refSpanNat (e :: rest) = refSpanNat rest := by
        simp [refSpanNat, hmem]
      have hpr : f.padRef = true := by simp [hpadRef]
      rw [hspan] at hb
      obtain ⟨st1, hstep1, e1, e2, e3, e4⟩ : ∃ st1,
          padStep readSeq refSeq st e = .ok st1 ∧
          st1.paddedRef.length = st.paddedRef.length + e.cigarLength ∧
          st1.paddedRead.length ≤ st.paddedRead.length + e.cigarLength ∧
          st1.shadePos = st.shadePos + e.cigarLength ∧
          st1.refPos = st.refPos := by
        refine ⟨_, hstep, ?_, ?_, ?_, ?_⟩
        · simp [hpr]
        · simp only [List.length_append]
          omega
        · simp
        · simp [hpr]
      rw [padWalkAux, hstep1]
      obtain ⟨st', hwalk, h1, h2, h3, h4⟩ :=
        ih st1 (fun x hx => hk x (by simp [hx])) (by omega)
      refine ⟨st', hwalk, ?_, ?_, ?_, ?_⟩
      · simp only [cigarLenSum]
        omega
      · simp only [cigarLenSum]
        omega
      · simp only [cigarLenSum]
        omega
      · rw [hspan]
        omega

theorem howLong_ok (cl : List CigarEntry) (n : Nat)
    (h : howLongShouldReferenceSequenceBe cl = .ok n) :
    n = refSpanNat cl ∧ ∀ e ∈ cl, ∃ b, refCountFlag e.cigarType = .ok b := by
  induction cl generalizing n with
  | nil =>
    simp [howLongShouldReferenceSequenceBe] at h
    subst h
    exact ⟨rfl, by simp⟩
  | cons e rest ih =>
    unfold howLongShouldReferenceSequenceBe at h
    cases hc : refCountFlag e.cigarType with
    | error m => rw [hc] at h; exact Except.noConfusion h
    | ok b =>
      rw [hc] at h
      cases hr : howLongShouldReferenceSequenceBe rest with
      | error m => rw [hr] at h; exact Except.noConfusion h
      | ok m =>
        rw [hr] at h
        injection h with hn
        obtain ⟨hm, hkr⟩ := ih m hr
        obtain ⟨hbval, -⟩ := refCountFlag_ok _ _ hc
        constructor
        · subst hn
          subst hm
          simp only [refSpanNat]
          subst hbval
          by_cases hmem : e.cigarType ∈ (['M', 'N', 'D', 'S'] : List Char) <;>
            simp [hmem]
        · intro x hx
          rcases List.mem_cons.1 hx with hx | hx
          · subst hx
            exact ⟨b, hc⟩
          · exact hkr x hx

/-- Claim C1: for every hard-clip-trimmed tokenized CIGAR, read sequence,
and reference window whose length equals the reference-span value computed
by howLongShouldReferenceSequenceBe for that CIGAR, the padding engine
returns (never raises) a result whose padded reference and padded read
both have length equal to the sum of all operation lengths. -/
theorem C1_padded_lengths (cl : List CigarEntry) (readSeq refSeq : List Char)
    (_hTrim : trimHardClips cl = some cl)
    (hspan : howLongShouldReferenceSequenceBe cl = .ok refSeq.length) :
    ∃ info diags, cigarListToShadedAreas cl readSeq refSeq = .ok (info, diags) ∧
      info.paddedRefSeq.length = cigarLenSum cl ∧
      info.paddedReadSeq.length = cigarLenSum cl := by
  obtain ⟨hn, hk⟩ := howLong_ok _ _ hspan
  obtain ⟨st, hwalk, h1, h2, h3, h4⟩ :=
    padWalkAux_spec readSeq refSeq cl initPadState hk
      (by simp [initPadState]; omega)
  simp only [initPadState] at h1 h2 h3 h4
  simp only [List.length_nil, Nat.zero_add] at h1 h2 h3 h4
  unfold cigarListToShadedAreas
  rw [hwalk]
  dsimp only
  by_cases hmis : lengthsInconsistent readSeq refSeq st = true
  · rw [if_pos hmis]
    by_cases hgt : st.paddedRef.length > st.paddedRead.length
    · rw [if_pos hgt]
      refine ⟨_, _, rfl, ?_, ?_⟩
      · dsimp only
        omega
      · dsimp only
        simp only [List.length_append, List.length_replicate]
        omega
    · rw [if_neg hgt]
      refine ⟨_, _, rfl, ?_, ?_⟩
      · dsimp only
        simp only [List.length_append, List.length_replicate]
        omega
      · dsimp only
        omega
  · rw [if_neg hmis]
    have hfalse : lengthsInconsistent readSeq refSeq st = false :=
      Bool.not_eq_true _ ▸ Bool.of_not_eq_true hmis
    simp only [lengthsInconsistent, Bool.or_eq_false_iff, bne_eq_false_iff_eq] at hfalse
    obtain ⟨⟨⟨hq1, hq2⟩, hq3⟩, hq4⟩ := hfalse
    refine ⟨_, _, rfl, ?_, ?_⟩
    · dsimp only
      omega
    · dsimp only
      omega

/-- Witness for C1 at the CIGAR 2M with read "AC" and reference window
"GT" (window length 2 equals the computed reference span). -/
theorem C1_padded_lengths_witness :
    trimHardClips [CigarEntry.mk 2 'M'] = some [CigarEntry.mk 2 'M'] ∧
    howLongShouldReferenceSequenceBe [CigarEntry.mk 2 'M'] =
      .ok ("GT".data.length) ∧
    ∃ info diags, cigarListToShadedAreas [CigarEntry.mk 2 'M'] "AC".data
        "GT".data = .ok (info, diags) ∧
      info.paddedRefSeq.length = cigarLenSum [CigarEntry.mk 2 'M'] ∧
      info.paddedReadSeq.length = cigarLenSum [CigarEntry.mk 2 'M'] :=
  ⟨rfl, rfl, C1_padded_lengths [CigarEntry.mk 2 'M'] "AC".data "GT".data rfl rfl⟩

/-- Claim C4: when the post-walk consistency checks fail, the engine
returns a result rather than raising: it emits exactly one diagnostic
(the structured content of the logging.error message, naming the expected
versus actual lengths and the offending CIGAR), pads the shorter padded
string with '?' characters, and the two returned padded strings have
equal length. -/
theorem C4_mismatch_pads_and_returns (cl : List CigarEntry)
    (readSeq refSeq : List Char) (st : PadState)
    (hwalk : padWalkAux readSeq refSeq cl initPadState = .ok st)
    (hmis : lengthsInconsistent readSeq refSeq st = true) :
    ∃ info, cigarListToShadedAreas cl readSeq refSeq =
        .ok (info, [mkDiag cl readSeq refSeq st]) ∧
      info.paddedRefSeq.length = info.paddedReadSeq.length ∧
      ((info.paddedRefSeq = st.paddedRef ∧
        info.paddedReadSeq = st.paddedRead ++
          List.replicate (st.paddedRef.length - st.paddedRead.length) '?') ∨
       (info.paddedRefSeq = st.paddedRef ++
          List.replicate (st.paddedRead.length - st.paddedRef.length) '?' ∧
        info.paddedReadSeq = st.paddedRead)) := by
  unfold cigarListToShadedAreas
  rw [hwalk]
  dsimp only
  rw [if_pos hmis]
  by_cases hgt : st.paddedRef.length > st.paddedRead.length
  · rw [if_pos hgt]
    refine ⟨_, rfl, ?_, Or.inl ⟨rfl, ?_⟩⟩
    · dsimp only
      simp only [List.length_append, List.length_replicate]
      omega
    · dsimp only
      congr 2
      omega
  · rw [if_neg hgt]
    refine ⟨_, rfl, ?_, Or.inr ⟨?_, rfl⟩⟩
    · dsimp only
      simp only [List.length_append, List.length_replicate]
      omega
    · dsimp only
      congr 2
      omega

/-- Witness for C4 at the CIGAR 3M with read "A" (too short) and
reference window "GGG": the walk leaves the read cursor at 3 while the
read has length 1, the checks fail, and the padded read is extended with
two '?' characters. -/
theorem C4_mismatch_pads_and_returns_witness :
    ∃ info, cigarListToShadedAreas [CigarEntry.mk 3 'M'] "A".data "GGG".data =
        .ok (info, [mkDiag [CigarEntry.mk 3 'M'] "A".data "GGG".data
          (PadState.mk [ShadedInterval.mk 0 3] [ShadedInterval.mk 0 3]
            "GGG".data "A".data 3 3 3)]) ∧
      info.paddedRefSeq.length = info.paddedReadSeq.length ∧
      ((info.paddedRefSeq = (PadState.mk [ShadedInterval.mk 0 3]
          [ShadedInterval.mk 0 3] "GGG".data "A".data 3 3 3).paddedRef ∧
        info.paddedReadSeq = (PadState.mk [ShadedInterval.mk 0 3]
          [ShadedInterval.mk 0 3] "GGG".data "A".data 3 3 3).paddedRead ++
          List.replicate 2 '?') ∨
       (info.paddedRefSeq = (PadState.mk [ShadedInterval.mk 0 3]
          [ShadedInterval.mk 0 3] "GGG".data "A".data 3 3 3).paddedRef ++
          List.replicate 0 '?' ∧
        info.paddedReadSeq = (PadState.mk [ShadedInterval.mk 0 3]
          [ShadedInterval.mk 0 3] "GGG".data "A".data 3 3 3).paddedRead)) :=
  C4_mismatch_pads_and_returns [CigarEntry.mk 3 'M'] "A".data "GGG".data
    (PadState.mk [ShadedInterval.mk 0 3] [ShadedInterval.mk 0 3]
      "GGG".data "A".data 3 3 3) rfl rfl

/-! Helper lemmas for the shaded-interval invariant. -/

theorem shadeInv_mono (l : List ShadedInterval) (pos pos' : Nat)
    (h : shadeInv l pos) (hle : pos ≤ pos') : shadeInv l pos' :=
  ⟨h.1, h.2.1, fun a ha => le_trans (h.2.2 a ha) hle⟩

theorem addShade_inv (l : List ShadedInterval) (pos L : Nat)
    (h : shadeInv l pos) (hL : 0 < L) :
    shadeInv (addShade l pos L) (pos + L) := by
  obtain ⟨hc, hp, hl⟩ := h
  rcases List.eq_nil_or_concat l with rfl | ⟨l0, a, rfl⟩
  · refine ⟨?_, ?_, ?_⟩ <;> simp [addShade]
    omega
  · rw [List.concat_eq_append] at hc hp hl ⊢
    have hlast : (l0 ++ [a]).getLast? = some a := List.getLast?_concat _
    have ha : a.start + a.length ≤ pos := hl a (by simp [hlast])
    obtain ⟨hcl0, -, hrel⟩ := List.chain'_append.1 hc
    unfold addShade
    rw [hlast]
    dsimp only
    by_cases he : a.start + a.length = pos
    · rw [if_pos he]
      rw [List.dropLast_concat]
      refine ⟨?_, ?_, ?_⟩
      · apply List.chain'_append.2
        refine ⟨hcl0, List.chain'_singleton _, ?_⟩
        intro x hx y hy
        simp at hy
        subst hy
        exact hrel x hx a (by simp)
      · intro iv hiv
        rcases List.mem_append.1 hiv with hiv | hiv
        · exact hp iv (List.mem_append.2 (Or.inl hiv))
        · simp at hiv
          subst hiv
          simp
          omega
      · intro x hx
        rw [List.getLast?_concat] at hx
        simp at hx
        subst hx
        simp
        omega
    · rw [if_neg he]
      have halt : a.start + a.length < pos := lt_of_le_of_ne ha he
      refine ⟨?_, ?_, ?_⟩
      · apply List.chain'_append.2
        refine ⟨hc, List.chain'_singleton _, ?_⟩
        intro x hx y hy
        rw [hlast] at hx
        simp at hx hy
        subst hx
        subst hy
        exact halt
      · intro iv hiv
        rcases List.mem_append.1 hiv with hiv | hiv
        · exact hp iv hiv
        · simp at hiv
          subst hiv
          exact hL
      · intro x hx
        rw [List.getLast?_concat] at hx
        simp at hx
        subst hx
        simp

theorem padStep_shadeInv (readSeq refSeq : List Char) (st : PadState)
    (e : CigarEntry) (st' : PadState)
    (h : padStep readSeq refSeq st e = .ok st')
    (hL : 0 < e.cigarLength)
    (h1 : shadeInv st.shadedRef st.shadePos)
    (h2 : shadeInv st.shadedRead st.shadePos) :
    shadeInv st'.shadedRef st'.shadePos ∧ shadeInv st'.shadedRead st'.shadePos := by
  unfold padStep at h
  cases hf : opFlags e.cigarType with
  | error m =>
    rw [hf] at h
    simp [Except.map] at h
  | ok f =>
    rw [hf] at h
    simp only [Except.map, Except.ok.injEq] at h
    subst h
    constructor
    · dsimp only
      cases f.shadeRef
      · simp only [Bool.false_eq_true, if_false]
        exact shadeInv_mono _ _ _ h1 (Nat.le_add_right _ _)
      · simp only [if_true]
        exact addShade_inv _ _ _ h1 hL
    · dsimp only
      cases f.shadeRead
      · simp only [Bool.false_eq_true, if_false]
        exact shadeInv_mono _ _ _ h2 (Nat.le_add_right _ _)
      · simp only [if_true]
        exact addShade_inv _ _ _ h2 hL

theorem padWalkAux_shadeInv (readSeq refSeq : List Char) :
    ∀ (cl : List CigarEntry) (st st' : PadState),
      padWalkAux readSeq refSeq cl st = .ok st' →
      (∀ e ∈ cl, 0 < e.cigarLength) →
      shadeInv st.shadedRef st.shadePos →
      shadeInv st.shadedRead st.shadePos →
      shadeInv st'.shadedRef st'.shadePos ∧
        shadeInv st'.shadedRead st'.shadePos := by
  intro cl
  induction cl with
  | nil =>
    intro st st' h _ h1 h2
    unfold padWalkAux at h
    injection h with h
    subst h
    exact ⟨h1, h2⟩
  | cons e rest ih =>
    intro st st' h hpos h1 h2
    unfold padWalkAux at h
    cases hs : padStep readSeq refSeq st e with
    | error m =>
      rw [hs] at h
      exact Except.noConfusion h
    | ok st1 =>
      rw [hs] at h
      obtain ⟨g1, g2⟩ := padStep_shadeInv readSeq refSeq st e st1 hs
        (hpos e (by simp)) h1 h2
      exact ih st1 st' h (fun x hx => hpos x (by simp [hx])) g1 g2

/-- Claim C5 counterexample: the tokenizer accepts zero-length operations
(e.g. the string "0D"), and on the CIGAR 1M 1I 0D the engine produces the
reference shaded list [(0,1), (2,0)] whose second interval has length 0 —
not every interval has positive length as the claim states. -/
theorem C5_counterexample :
    cigarStringToList "1M1I0D" = [CigarEntry.mk 1 'M', CigarEntry.mk 1 'I',
      CigarEntry.mk 0 'D'] ∧
    cigarListToShadedAreas [CigarEntry.mk 1 'M', CigarEntry.mk 1 'I',
        CigarEntry.mk 0 'D'] "AC".data "G".data =
      .ok (ShadedAreasInfo.mk [ShadedInterval.mk 0 1, ShadedInterval.mk 2 0]
        [ShadedInterval.mk 0 2] "G ".data "AC".data, []) ∧
    ¬ intervalsWellFormed [ShadedInterval.mk 0 1, ShadedInterval.mk 2 0] := by
  refine ⟨by decide, rfl, ?_⟩
  intro h
  exact absurd (h.2 (ShadedInterval.mk 2 0) (by simp)) (by simp)

/-- Claim C5 amended: for every CIGAR whose operation lengths are all
positive, each shaded-interval list returned by the padding engine is
start-ordered and maximally merged — consecutive intervals a, b satisfy
a.start + a.length < b.start (in particular never equality), and every
interval has positive length (starts are naturals, hence nonnegative). -/
theorem C5_intervals_wellFormed (cl : List CigarEntry)
    (readSeq refSeq : List Char) (info : ShadedAreasInfo)
    (diags : List PaddingDiag)
    (hok : cigarListToShadedAreas cl readSeq refSeq = .ok (info, diags))
    (hpos : ∀ e ∈ cl, 0 < e.cigarLength) :
    intervalsWellFormed info.shadedRef ∧ intervalsWellFormed info.shadedRead := by
  unfold cigarListToShadedAreas at hok
  cases hw : padWalkAux readSeq refSeq cl initPadState with
  | error m =>
    rw [hw] at hok
    exact Except.noConfusion hok
  | ok st =>
    rw [hw] at hok
    obtain ⟨g1, g2⟩ := padWalkAux_shadeInv readSeq refSeq cl initPadState st hw
      hpos (by simp [initPadState, shadeInv]) (by simp [initPadState, shadeInv])
    have hfields : info.shadedRef = st.shadedRef ∧
        info.shadedRead = st.shadedRead := by
      dsimp only at hok
      by_cases hmis : lengthsInconsistent readSeq refSeq st = true
      · rw [if_pos hmis] at hok
        by_cases hgt : st.paddedRef.length > st.paddedRead.length
        · rw [if_pos hgt] at hok
          simp only [Except.ok.injEq, Prod.mk.injEq] at hok
          obtain ⟨hinfo, -⟩ := hok
          subst hinfo
          exact ⟨rfl, rfl⟩
        · rw [if_neg hgt] at hok
          simp only [Except.ok.injEq, Prod.mk.injEq] at hok
          obtain ⟨hinfo, -⟩ := hok
          subst hinfo
          exact ⟨rfl, rfl⟩
      · rw [if_neg hmis] at hok
        simp only [Except.ok.injEq, Prod.mk.injEq] at hok
        obtain ⟨hinfo, -⟩ := hok
        subst hinfo
        exact ⟨rfl, rfl⟩
    rw [hfields.1, hfields.2]
    exact ⟨⟨g1.1, g1.2.1⟩, ⟨g2.1, g2.2.1⟩⟩

/-- Witness for the amended C5 at the CIGAR 2M with read "AC" and
reference window "GT". -/
theorem C5_intervals_wellFormed_witness :
    intervalsWellFormed (ShadedAreasInfo.mk [ShadedInterval.mk 0 2]
      [ShadedInterval.mk 0 2] "GT".data "AC".data).shadedRef ∧
    intervalsWellFormed (ShadedAreasInfo.mk [ShadedInterval.mk 0 2]
      [ShadedInterval.mk 0 2] "GT".data "AC".data).shadedRead :=
  C5_intervals_wellFormed [CigarEntry.mk 2 'M'] "AC".data "GT".data _ []
    rfl (by decide)

/-! Helper lemmas for Python str.split. -/

theorem splitOnSepGo_whole (sep : List Char) :
    ∀ (fuel : Nat) (acc rest : List Char), rest.length < fuel →
      ¬ sep <:+: rest → splitOnSepGo sep fuel acc rest = [acc ++ rest] := by
  intro fuel
  induction fuel with
  | zero =>
    intro acc rest h _
    exact absurd h (Nat.not_lt_zero _)
  | succ fuel ih =>
    intro acc rest hlen hno
    cases rest with
    | nil =>
      have hsep : sep.isPrefixOf ([] : List Char) = false := by
        cases hs : sep with
        | nil =>
          subst hs
          exact absurd (by simp) hno
        | cons x xs => rfl
      simp [splitOnSepGo, hsep]
    | cons c r =>
      have hpre : sep.isPrefixOf (c :: r) = false := by
        by_contra h'
        have hp : sep <+: (c :: r) :=
          List.isPrefixOf_iff_prefix.1 (Bool.of_not_eq_false h')
        obtain ⟨t, ht⟩ := hp
        exact hno ⟨[], t, by simp [ht]⟩
      have hnr : ¬ sep <:+: r := by
        rintro ⟨s, t, rfl⟩
        exact hno ⟨c :: s, t, rfl⟩
      simp only [splitOnSepGo, hpre, Bool.false_eq_true, if_false]
      rw [ih (acc ++ [c]) r (by simpa using Nat.lt_of_succ_lt_succ hlen) hnr]
      simp

theorem splitOnSep_whole (sep s : List Char) (hno : ¬ sep <:+: s) :
    splitOnSep sep s = [s] := by
  unfold splitOnSep
  rw [splitOnSepGo_whole sep (s.length + 1) [] s (by omega) hno]
  simp

/-- Claim C7 counterexample: a record whose tag string is "SA:A:x"
contains the substring "SA:" and its single whitespace token does not
begin with "SA:Z:", so per the claim it should be filtered out (None);
instead the unpacking head, tail = tags.split("SA:Z:") receives one part
and the loop body raises ValueError. -/
theorem C7_counterexample :
    containsSub "SA:".data "SA:A:x".data = true ∧
    pyWhitespaceSplit "SA:A:x".data = ["SA:A:x".data] ∧
    processRecord (AlignmentRec.mk "r1".data "chr7".data 100 60 "25M".data
      "SA:A:x".data "ACGT".data 25) = .error PyErr.valueError :=
  ⟨by decide, rfl, rfl⟩

/-- Claim C7 amended: a record whose tag string lacks "SA:" entirely is
skipped without error, but a record whose tag string contains "SA:" while
not containing "SA:Z:" makes the filter raise ValueError (the two-way
unpack of split("SA:Z:") fails) instead of being treated as filtered out. -/
theorem C7_filter_raises_without_SAZ (a : AlignmentRec) :
    (containsSub "SA:".data a.sam_tags_string = false →
      processRecord a = .ok none) ∧
    (containsSub "SA:".data a.sam_tags_string = true →
      containsSub "SA:Z:".data a.sam_tags_string = false →
      processRecord a = .error PyErr.valueError) := by
  constructor
  · intro h
    simp [processRecord, h]
  · intro h1 h2
    have hno : ¬ ("SA:Z:".data <:+: a.sam_tags_string) := by
      have := h2
      unfold containsSub at this
      exact of_decide_eq_false this
    have hsplit : splitOnSep "SA:Z:".data a.sam_tags_string =
        [a.sam_tags_string] := splitOnSep_whole _ _ hno
    unfold processRecord
    rw [h1, hsplit]
    simp

/-- Witness for the amended C7 at a record whose tags are
"NM:i:0 SA:B:y" (contains "SA:" but not "SA:Z:"). -/
theorem C7_filter_raises_without_SAZ_witness :
    processRecord (AlignmentRec.mk "r2".data "chr3".data 7 60 "10M".data
      "NM:i:0 SA:B:y".data "ACGT".data 4) = .error PyErr.valueError :=
  (C7_filter_raises_without_SAZ _).2 (by decide) (by decide)

/-- Claim C8 counterexample: for a record whose reference name is "7chr"
the source's strip("chr") removes the characters c, h, r from both ends,
producing primary chromosome "7"; the claim's normalization (strip only a
leading "chr" literal, nothing else) would leave "7chr" unchanged.  The
supplementary chromosome "chrQ7" keeps its leading chr, as the claim
says. -/
theorem C8_counterexample :
    processRecord (AlignmentRec.mk "read1".data "7chr".data 100 60 "25M".data
      "SA:Z:chrQ7,500,+,20M,60,0".data "ACGT".data 25) =
      .ok (some (Read.mk "read1".data "7".data 100
        "chrQ7,500,+,20M,60,0".data "ACGT".data 25 "25M".data
        "chrQ7".data "500".data 60)) ∧
    specStripLeadingChr "7chr".data = "7chr".data ∧
    "7".data ≠ "7chr".data :=
  ⟨rfl, rfl, by decide⟩

/-- Claim C8 amended: the candidate's primary chromosome is the record's
reference name with every leading and trailing character from the set
c, h, r removed (Python str.strip("chr") semantics), not just a leading
"chr" literal; the supplementary chromosome is the SA tag's first comma
field with the text through "SA:Z:" removed and no chr normalization
applied.  Stated for an arbitrary reference name against a fixed
well-formed SA tag. -/
theorem C8_chromosome_normalization (qn rn sq cg : List Char) (p ls : Int) :
    processRecord (AlignmentRec.mk qn rn p 60 cg
      "SA:Z:chrQ7,500,+,20M,60,0".data sq ls) =
      .ok (some (Read.mk qn (pyStrip "chr".data rn) p
        "chrQ7,500,+,20M,60,0".data sq ls cg "chrQ7".data "500".data 60)) := rfl

/-- Claim C10: in the codec's read path both the read start and the
reference start are parsed as int of the text of the block's second line
before the first ':' (the chromosome field as written), so every
successfully parsed record has equal start positions and the digits after
the colon are never used; a block whose chromosome field is not a decimal
integer (here "X") raises ValueError instead of producing a record. -/
theorem C10_positions :
    (∀ (lines : List (List Char)) (info : AlignmentInfoM),
      processBlock lines = .ok (some info) → info.readStart = info.refStart) ∧
    processBlock ["readA".data, "X:500".data, "25".data, "25M".data,
      "ACGTA".data, "ACGTA".data] = .error PyErr.valueError := by
  constructor
  · intro lines info h
    unfold processBlock at h
    cases h0 : pyIndex lines 0 with
    | error e => rw [h0] at h; dsimp only at h; exact Except.noConfusion h
    | ok name =>
    rw [h0] at h
    dsimp only at h
    cases h1 : pyIndex lines 1 with
    | error e => rw [h1] at h; dsimp only at h; exact Except.noConfusion h
    | ok line1 =>
    rw [h1] at h
    dsimp only at h
    cases h2 : pyIndex (splitOnSep (':' :: []) line1) 0 with
    | error e => rw [h2] at h; dsimp only at h; exact Except.noConfusion h
    | ok cell1 =>
    rw [h2] at h
    dsimp only at h
    cases h3 : pyInt cell1 with
    | none => rw [h3] at h; dsimp only at h; exact Except.noConfusion h
    | some v =>
    rw [h3] at h
    dsimp only at h
    cases h4 : pyIndex lines 3 with
    | error e => rw [h4] at h; dsimp only at h; exact Except.noConfusion h
    | ok line3 =>
    rw [h4] at h
    dsimp only at h
    cases h5 : trimHardClips (cigarStringToList (String.mk line3)) with
    | none => rw [h5] at h; dsimp only at h; simp at h
    | some cl =>
    rw [h5] at h
    dsimp only at h
    cases h6 : pyIndex lines 4 with
    | error e => rw [h6] at h; dsimp only at h; exact Except.noConfusion h
    | ok readSeq =>
    rw [h6] at h
    dsimp only at h
    cases h7 : pyIndex lines 5 with
    | error e => rw [h7] at h; dsimp only at h; exact Except.noConfusion h
    | ok refSeq =>
    rw [h7] at h
    dsimp only at h
    cases h8 : cigarListToShadedAreas cl readSeq refSeq with
    | error m => rw [h8] at h; dsimp only at h; exact Except.noConfusion h
    | ok pr =>
    obtain ⟨info0, diags0⟩ := pr
    rw [h8] at h
    dsimp only at h
    simp only [Except.ok.injEq, Option.some.injEq] at h
    subst h
    rfl
  · rfl

/-- Witness for C10 at a concrete well-formed block with second line
"7:500": both parsed start positions equal 7 (the text before the colon),
not 500. -/
theorem C10_positions_witness :
    (AlignmentInfoM.mk "readA".data [CigarEntry.mk 4 'M'] 7 7 "ACGT".data
      "ACGT".data "ACGT".data "ACGT".data [ShadedInterval.mk 0 4]
      [ShadedInterval.mk 0 4]).readStart =
    (AlignmentInfoM.mk "readA".data [CigarEntry.mk 4 'M'] 7 7 "ACGT".data
      "ACGT".data "ACGT".data "ACGT".data [ShadedInterval.mk 0 4]
      [ShadedInterval.mk 0 4]).refStart :=
  C10_positions.1 ["readA".data, "7:500".data, "4".data, "4M".data,
    "ACGT".data, "ACGT".data] _ rfl
